import Mathlib

/-!
Verification of the narapulse-be backend (Go) against its specification.

This file shallowly embeds the parts of the source that the claims are
about:

* `internal/services/sql_validator_service.go` — SQL validation, blocked
  keyword scanning, function allow-listing, safety scoring, limit
  enforcement and the execution safety gate.
* the RAG service (`RAGService`: cosine similarity, similarity search,
  NL2SQL context building).
* the NL2SQL service (`NL2SQLService.ConvertNL2SQL` / `ExecuteQuery`) and
  the `NL2SQLQuery` entity of `internal/models/entity/nl2sql.go`.

Modelling conventions:

* Go strings are modelled as Lean `String` / `List Char`; Go's
  `strings.ToUpper` / `strings.TrimSpace` are modelled on their ASCII
  fragment (`Char.toUpper`, the ASCII/Latin-1 white-space set).
* Go `float64` arithmetic is modelled exactly: scores computed from small
  literals are modelled in `ℚ`, vector arithmetic in `ℝ`.
* Database reads and calls to the embedding service are effectful; they are
  modelled by passing their outcome (the fetched rows, the produced
  embedding, or the error) as an explicit argument.
-/

namespace Narapulse

/-! ## Go string primitives -/

/-- Go `strings.Contains(hay, needle)` on rune lists: `needle` occurs as a
contiguous substring of `hay` (the empty needle always occurs). -/
def containsSub (hay needle : List Char) : Bool :=
  match hay with
  | [] => needle.isEmpty
  | c :: t => needle.isPrefixOf (c :: t) || containsSub t needle

/-- Go `strings.ToUpper`, restricted to its ASCII action (the source only
scans for ASCII keywords). -/
def goToUpper (s : List Char) : List Char :=
  s.map Char.toUpper

/-- White space as in Go's `unicode.IsSpace` restricted to Latin-1:
space, \t, \n, \v, \f, \r, NEL (U+0085) and NBSP (U+00A0). -/
def isGoSpace (c : Char) : Bool :=
  c.toNat = 32 || c.toNat = 9 || c.toNat = 10 || c.toNat = 11 ||
    c.toNat = 12 || c.toNat = 13 || c.toNat = 133 || c.toNat = 160

/-- Go `strings.TrimSpace`: drop white space from both ends. -/
def trimSpace (s : List Char) : List Char :=
  ((s.dropWhile isGoSpace).reverse.dropWhile isGoSpace).reverse

/-! ## SQL validator service (`sql_validator_service.go`) -/

/-- Allow-listed functions (`NewSQLValidatorService`). -/
def allowedFunctions : List String :=
  ["COUNT", "SUM", "AVG", "MIN", "MAX",
   "UPPER", "LOWER", "TRIM", "LENGTH", "SUBSTRING", "CONCAT",
   "DATE", "YEAR", "MONTH", "DAY", "DATE_TRUNC", "DATE_ADD", "DATE_SUB",
   "EXTRACT", "NOW", "CURRENT_DATE", "CURRENT_TIMESTAMP",
   "ROUND", "CEIL", "FLOOR", "ABS", "COALESCE", "NULLIF",
   "CASE", "IF", "IFNULL"]

/-- Blocked keywords, in source order (`NewSQLValidatorService`). -/
def blockedKeywords : List String :=
  ["INSERT", "UPDATE", "DELETE", "MERGE", "UPSERT",
   "CREATE", "ALTER", "DROP", "TRUNCATE", "RENAME",
   "GRANT", "REVOKE",
   "COMMIT", "ROLLBACK", "SAVEPOINT",
   "EXEC", "EXECUTE", "CALL", "LOAD", "COPY",
   "INTO OUTFILE", "LOAD DATA", "SELECT INTO",
   "SHOW", "DESCRIBE", "EXPLAIN", "ANALYZE"]

/-- Source `maxJoinTables` of `NewSQLValidatorService`. -/
def maxJoinTables : Nat := 5

/-- Source `maxRowLimit` of `NewSQLValidatorService`. -/
def maxRowLimit : Nat := 10000

/-- Entity `models.SQLValidationResult` (`nl2sql.go`); `float64` fields modelled
in `ℚ`. -/
structure SQLValidationResult where
  isValid : Bool
  isReadOnly : Bool
  hasLimit : Bool
  estimatedCost : ℚ
  safetyScore : ℚ
  violations : List String
  warnings : List String
deriving Repr, DecidableEq

/-- Source `checkBlockedKeywords`: upper-case the SQL, report every blocked
keyword occurring as a substring, in list order. -/
def checkBlockedKeywords (sql : String) : List String :=
  blockedKeywords.filterMap fun keyword =>
    if containsSub (goToUpper sql.toList) keyword.toList then
      some ("Blocked keyword detected: " ++ keyword)
    else none

/-- Source `isFunctionAllowed`: membership in the allow list. -/
def isFunctionAllowed (funcName : String) : Bool :=
  allowedFunctions.contains funcName

/-- Word characters for the regex word boundary `\b` (RE2, ASCII). -/
def isWordChar (c : Char) : Bool :=
  c.isAlpha || c.isDigit || c = '_'

/-- Characters matched by `(?i)[A-Z_]` in `validateFunctions`' regex. -/
def isFuncNameChar (c : Char) : Bool :=
  c.isAlpha || c = '_'

/-- Characters matched by the regex class `\s` (RE2). -/
def isRegexSpace (c : Char) : Bool :=
  c = ' ' || c.toNat = 9 || c.toNat = 10 || c.toNat = 12 || c.toNat = 13

/-- Scanner equivalent of the regex `(?i)\b([A-Z_]+)\s*\(` used by
`validateFunctions`: a maximal run of letters/underscores starting at a
word boundary and followed by optional white space and `(` is a function
call; the Boolean argument records whether the previous character was a
word character. Matches are non-overlapping and reported left to right,
exactly as `FindAllStringSubmatch` reports them (a match can only begin at
the start of such a run, so per-position scanning finds the same set). -/
def validateFunctionsAux : List Char → Bool → List String
  | [], _ => []
  | c :: rest, prevWord =>
    if isFuncNameChar c && !prevWord then
      let after := (rest.dropWhile isFuncNameChar).dropWhile isRegexSpace
      let hit := match after with
        | '(' :: _ => true
        | _ => false
      let funcName := String.mk (goToUpper (c :: rest.takeWhile isFuncNameChar))
      (if hit && !isFunctionAllowed funcName then
        ["Unauthorized function: " ++ funcName]
      else []) ++ validateFunctionsAux rest (isWordChar c)
    else
      validateFunctionsAux rest (isWordChar c)

/-- Source `validateFunctions`: report every function call whose (upper-cased)
name is not allow-listed. -/
def validateFunctions (sql : String) : List String :=
  validateFunctionsAux sql.toList false

/-- Source `suspiciousPatterns` of `checkSecurityIssues`. -/
def suspiciousPatterns : List String :=
  ["--", "/*", "*/", ";",
   "UNION", "OR 1=1", "AND 1=1",
   "DROP", "DELETE", "UPDATE"]

/-- Source `checkSecurityIssues`: warn for each suspicious pattern occurring in
the upper-cased SQL. -/
def checkSecurityIssues (sql : String) : List String :=
  suspiciousPatterns.filterMap fun pattern =>
    if containsSub (goToUpper sql.toList) pattern.toList then
      some ("Potentially suspicious pattern detected: " ++ pattern)
    else none

/-- The information the validator extracts from a parsed `SELECT`
statement (`sqlparser.Select`): presence of a LIMIT clause, the table
count of the FROM clause, and the clauses used by `estimateQueryCost`. -/
structure SelectInfo where
  hasLimit : Bool
  fromTableCount : Nat
  hasWhere : Bool
  hasGroupBy : Bool
  hasOrderBy : Bool
deriving Repr, DecidableEq

/-- Outcome of `sqlparser.Parse` followed by the `*sqlparser.Select` type
assertion: a parse error, a non-SELECT statement, or a SELECT with the
extracted `SelectInfo`. `ValidateSQL` is verified for an arbitrary such
oracle, since the third-party parser is not part of the repository. -/
inductive ParseOutcome where
  | parseFailure (msg : String)
  | notSelect
  | selectStmt (info : SelectInfo)
deriving Repr, DecidableEq

/-- Source `validateJoinComplexity`: warn when the FROM clause joins more than
`maxJoinTables` tables. -/
def validateJoinComplexity (info : SelectInfo) : List String :=
  if info.fromTableCount > maxJoinTables then
    ["Query joins too many tables (" ++ toString info.fromTableCount ++
      " > " ++ toString maxJoinTables ++ ")"]
  else []

/-- Source `calculateSafetyScore`: start from 1.0, subtract 0.3 per violation and
0.1 per warning, add 0.1 for a LIMIT clause and 0.2 for read-only, then
clamp into [0,1] (low clamp first, as in the source). -/
def calculateSafetyScore (result : SQLValidationResult) : ℚ :=
  let score : ℚ := 1 - (result.violations.length : ℚ) * (3 / 10)
    - (result.warnings.length : ℚ) * (1 / 10)
  let score := if result.hasLimit then score + 1 / 10 else score
  let score := if result.isReadOnly then score + 2 / 10 else score
  let score := if score < 0 then 0 else score
  if score > 1 then 1 else score

/-- Source `estimateQueryCost`: base cost plus per-table, join, WHERE, GROUP BY
and ORDER BY costs. -/
def estimateQueryCost (info : SelectInfo) : ℚ :=
  let cost : ℚ := 1 / 100
  let cost := cost + (info.fromTableCount : ℚ) * (5 / 1000)
  let cost := if info.fromTableCount > 1 then
      cost + ((info.fromTableCount : ℚ) - 1) * (1 / 100)
    else cost
  let cost := if info.hasWhere then cost + 5 / 1000 else cost
  let cost := if info.hasGroupBy then cost + 1 / 100 else cost
  if info.hasOrderBy then cost + 5 / 1000 else cost

/-- The zero-value `SQLValidationResult` that `ValidateSQL` starts from. -/
def emptyValidationResult : SQLValidationResult :=
  { isValid := false, isReadOnly := false, hasLimit := false,
    estimatedCost := 0, safetyScore := 0, violations := [], warnings := [] }

/-- Source `ValidateSQL`: trims the SQL, rejects empty input, scans for blocked
keywords, parses (via the oracle `parse`), requires a SELECT, collects
LIMIT/JOIN warnings, validates function calls, collects security warnings,
and finally computes the safety score and cost. The second component is
the returned Go `error` (`some msg` = non-nil error). -/
def ValidateSQL (parse : String → ParseOutcome) (sqlRaw : String) :
    SQLValidationResult × Option String :=
  let sql := String.mk (trimSpace sqlRaw.toList)
  if sql = "" then
    ({ emptyValidationResult with violations := ["Empty SQL query"] },
      some "empty SQL query")
  else
    let kwViolations := checkBlockedKeywords sql
    if kwViolations ≠ [] then
      ({ emptyValidationResult with violations := kwViolations },
        some "SQL contains blocked operations")
    else
      match parse sql with
      | ParseOutcome.parseFailure msg =>
        ({ emptyValidationResult with
            violations := ["SQL parsing error: " ++ msg] },
          some ("failed to parse SQL: " ++ msg))
      | ParseOutcome.notSelect =>
        ({ emptyValidationResult with
            violations := ["Only SELECT statements are allowed"] },
          some "only SELECT statements are allowed")
      | ParseOutcome.selectStmt info =>
        let hasLimit := info.hasLimit
        let warnings1 :=
          if hasLimit then []
          else ["Query should include LIMIT clause for performance"]
        let warnings2 := warnings1 ++ validateJoinComplexity info
        let fnViolations := validateFunctions sql
        if fnViolations ≠ [] then
          ({ emptyValidationResult with
              isReadOnly := true, hasLimit := hasLimit,
              warnings := warnings2, violations := fnViolations },
            some "SQL contains unauthorized functions")
        else
          let warnings3 := warnings2 ++ checkSecurityIssues sql
          let resultA : SQLValidationResult :=
            { emptyValidationResult with
                isReadOnly := true, hasLimit := hasLimit,
                warnings := warnings3, violations := [] }
          let resultB :=
            { resultA with
                safetyScore := calculateSafetyScore resultA,
                estimatedCost := estimateQueryCost info }
          ({ resultB with isValid := resultB.violations.isEmpty }, none)

/-- Source `IsQuerySafe`: the execution gate — valid, read-only and safety score
at least 0.7. -/
def IsQuerySafe (result : SQLValidationResult) : Bool :=
  result.isValid && result.isReadOnly && decide (result.safetyScore ≥ 7 / 10)

/-! ## Limit enforcement (`EnforceLimit`)

`EnforceLimit` delegates parsing and printing to the third-party
`sqlparser` package, which is not part of the repository.  Modelled from
the spec: a parsed SELECT is its body together with an optional trailing
`limit` clause; the printer emits the body followed by ` limit <n>`
(`sqlparser.String` prints the limit clause last, in lower case), and
re-parsing recognises exactly that trailing clause.  Acceptance of the
body as a structurally valid single SELECT is an oracle argument. -/

/-- Decimal digit character `d ↦ '0'+d` (for `fmt.Sprintf("%d", ·)`). -/
def digitChar (d : Nat) : Char :=
  Char.ofNat (48 + d)

/-- Decimal digit string of `n` (fuelled, structurally recursive; the fuel
`n + 1` always suffices since the number of digits is at most `n + 1`). -/
def digitsOfAux : Nat → Nat → List Char
  | 0, _ => []
  | fuel + 1, n =>
    if n < 10 then [digitChar n]
    else digitsOfAux fuel (n / 10) ++ [digitChar (n % 10)]

/-- Decimal rendering of `n`, as `fmt.Sprintf("%d", n)`. -/
def digitsOf (n : Nat) : List Char :=
  digitsOfAux (n + 1) n

/-- Numeric value of a decimal digit string. -/
def digitsVal (cs : List Char) : Nat :=
  cs.foldl (fun acc c => acc * 10 + (c.toNat - 48)) 0

/-- The ` limit ` separator emitted by the printer. -/
def limitKeyword : List Char :=
  [' ', 'l', 'i', 'm', 'i', 't', ' ']

/-- Modelled from the spec: result of `sqlparser.Parse` on a SELECT — the
statement body and its optional LIMIT row count. -/
structure ParsedSelect where
  body : List Char
  limitVal : Option Nat
deriving Repr, DecidableEq

/-- Modelled from the spec: parsing recognises a trailing
` limit <digits>` clause and otherwise leaves the body untouched. -/
def parseSelectChars (cs : List Char) : ParsedSelect :=
  let revCs := cs.reverse
  let revDigits := revCs.takeWhile Char.isDigit
  let rest := revCs.dropWhile Char.isDigit
  if !revDigits.isEmpty && limitKeyword.reverse.isPrefixOf rest then
    { body := (rest.drop limitKeyword.length).reverse,
      limitVal := some (digitsVal revDigits.reverse) }
  else
    { body := cs, limitVal := none }

/-- Modelled from the spec: `sqlparser.String` prints the body and then
the LIMIT clause, if any. -/
def printSelect (p : ParsedSelect) : List Char :=
  p.body ++ (match p.limitVal with
    | none => []
    | some n => limitKeyword ++ digitsOf n)

/-- Source `EnforceLimit`: clamp the requested limit into `(0, maxRowLimit]`
(defaulting to `maxRowLimit`), parse the SQL, require a SELECT (the
`accept` oracle stands for `sqlparser.Parse` succeeding with a
`*sqlparser.Select` for this body), overwrite the LIMIT clause and print.
`none` models the error returns. -/
def EnforceLimit (accept : List Char → Bool) (sql : String) (limit : Int) :
    Option String :=
  let lim : Nat :=
    if limit ≤ 0 || limit > (maxRowLimit : Int) then maxRowLimit
    else limit.toNat
  let parsed := parseSelectChars sql.toList
  if accept parsed.body then
    some (String.mk (printSelect { parsed with limitVal := some lim }))
  else none

/-! ## RAG service (`RAGService`) -/

/-- Entity `models.SchemaEmbedding` (`rag.go`), restricted to the fields the RAG
service reads; the embedding vector's `float32` entries are modelled in
`ℝ`. -/
structure SchemaEmbedding where
  id : Nat
  dataSourceID : Nat
  elementType : String
  elementName : String
  content : String
  embedding : List ℝ
  metadata : List (String × String)

/-- Entity `models.RAGSearchResult` (`rag.go`); the JSON metadata object is
modelled as an association list of its string entries. -/
structure RAGSearchResult where
  elementType : String
  elementName : String
  content : String
  score : ℝ
  metadata : List (String × String)

/-- Entity `models.RAGSearchResponse` (`rag.go`). -/
structure RAGSearchResponse where
  results : List RAGSearchResult
  query : String
  topK : Nat

/-- Source `cosineSimilarity`: 0.0 on dimension mismatch, else the dot product
over the common indices divided by the product of the vector norms, with
0.0 when either norm vanishes.  The Go loop `for i := range a` reading
`a[i]` and `b[i]` is the fold over `a.zip b` (the lengths are equal in
that branch). -/
noncomputable def cosineSimilarity (a b : List ℝ) : ℝ :=
  if a.length ≠ b.length then 0
  else
    let pairs := a.zip b
    let dotProduct := (pairs.map fun p => p.1 * p.2).sum
    let normA := (pairs.map fun p => p.1 * p.1).sum
    let normB := (pairs.map fun p => p.2 * p.2).sum
    if normA = 0 ∨ normB = 0 then 0
    else dotProduct / (Real.sqrt normA * Real.sqrt normB)

/-- The `topK` clamping at the head of `SearchSimilar`: non-positive
values default to 5, values above 20 are cut to 20. -/
def clampTopK (topK : Int) : Nat :=
  if topK ≤ 0 then 5
  else if topK > 20 then 20
  else topK.toNat

/-- The data-source filter of `SearchSimilar`'s DB query:
`data_source_id = ? OR data_source_id = 0` when a source is given,
`data_source_id = 0` (global only) otherwise. -/
def matchesDataSource (dataSourceID : Nat) (e : SchemaEmbedding) : Bool :=
  if dataSourceID > 0 then
    e.dataSourceID == dataSourceID || e.dataSourceID == 0
  else e.dataSourceID == 0

/-- The element-type filter of `SearchSimilar`'s DB query: no filter when
the list is empty, else `element_type IN ?`. -/
def matchesElementTypes (elementTypes : List String) (e : SchemaEmbedding) :
    Bool :=
  elementTypes.isEmpty || elementTypes.contains e.elementType

/-- Descending-score ordering used to sort search results (`sort.Slice`
with `results[i].Score > results[j].Score`). -/
def scoreDesc (x y : SchemaEmbedding × ℝ) : Prop :=
  y.2 ≤ x.2

noncomputable instance : DecidableRel scoreDesc := fun x y =>
  inferInstanceAs (Decidable (y.2 ≤ x.2))

instance : IsTotal (SchemaEmbedding × ℝ) scoreDesc :=
  ⟨fun x y => le_total y.2 x.2⟩

instance : IsTrans (SchemaEmbedding × ℝ) scoreDesc :=
  ⟨fun _ _ _ h h' => le_trans h' h⟩

/-- Source `SearchSimilar`, after the effectful steps have produced the query
embedding (`queryEmbedding`, from the embedding service) and the stored
rows (`stored`, the result of the gorm `Find`): clamp `topK`, filter rows
by data source and element type, score each row by cosine similarity,
sort by descending score, truncate to `topK` and convert.  The Go code
sorts with `sort.Slice`, which promises a descending-score permutation
but no particular order among equal scores; the model uses insertion sort
(as `sort.Slice` itself does on small inputs). -/
noncomputable def SearchSimilar (queryEmbedding : List ℝ)
    (stored : List SchemaEmbedding) (query : String) (dataSourceID : Nat)
    (topK : Int) (elementTypes : List String) : RAGSearchResponse :=
  let k := clampTopK topK
  let embeddings := stored.filter fun e =>
    matchesDataSource dataSourceID e && matchesElementTypes elementTypes e
  let results := embeddings.map fun e =>
    (e, cosineSimilarity queryEmbedding e.embedding)
  let sorted := results.insertionSort scoreDesc
  let top := sorted.take k
  { results := top.map fun r =>
      { elementType := r.1.elementType, elementName := r.1.elementName,
        content := r.1.content, score := r.2, metadata := r.1.metadata },
    query := query, topK := k }

/-- Source `buildKPIContext`: one entry per KPI search result. -/
def buildKPIContext (results : List RAGSearchResult) :
    List (String × String × ℝ) :=
  results.map fun result => (result.elementName, result.content, result.score)

/-- Source `buildGlossaryContext`: one term/definition entry per glossary search
result. -/
def buildGlossaryContext (results : List RAGSearchResult) :
    List (String × String × ℝ) :=
  results.map fun result => (result.elementName, result.content, result.score)

/-- The table name a column result carries in its metadata (`""` when
missing), as read by `buildSchemaContext`. -/
def metaTableName (result : RAGSearchResult) : String :=
  match result.metadata.lookup "table" with
  | some t => t
  | none => ""

/-- Source `buildSchemaContext`: the table entries and, grouped by their
metadata table name, the column entries (columns without a table name are
dropped). -/
def buildSchemaContext (results : List RAGSearchResult) :
    List (String × RAGSearchResult) × List (String × RAGSearchResult) :=
  (results.filterMap fun result =>
      if result.elementType = "table" then some (result.elementName, result)
      else none,
    results.filterMap fun result =>
      if result.elementType = "column" ∧ metaTableName result ≠ "" then
        some (metaTableName result, result)
      else none)

/-- The context object built by `BuildNL2SQLContext`. -/
structure NL2SQLContext where
  query : String
  dataSourceID : Nat
  schemaContext : List (String × RAGSearchResult) × List (String × RAGSearchResult)
  kpiContext : List (String × String × ℝ)
  glossaryContext : List (String × String × ℝ)

/-- Source `BuildNL2SQLContext`, with the outcomes of its three `SearchSimilar`
calls passed explicitly: `schemaSearch` is the search over element types
`table`/`column` on the given data source (top 10), `kpiSearch` the global
`kpi` search (top 5) and `glossarySearch` the global `glossary` search
(top 5).  Each outcome is `Except.error e` exactly when that
`SearchSimilar` call returned a non-nil error (its embedding step or DB
fetch failed).  The Go code returns an error for each of the three in
turn, wrapping the message. -/
def BuildNL2SQLContext (query : String) (dataSourceID : Nat)
    (schemaSearch kpiSearch glossarySearch : Except String RAGSearchResponse) :
    Except String NL2SQLContext :=
  match schemaSearch with
  | Except.error e => Except.error ("failed to search schema: " ++ e)
  | Except.ok schemaResults =>
    match kpiSearch with
    | Except.error e => Except.error ("failed to search KPIs: " ++ e)
    | Except.ok kpiResults =>
      match glossarySearch with
      | Except.error e => Except.error ("failed to search glossary: " ++ e)
      | Except.ok glossaryResults =>
        Except.ok
          { query := query, dataSourceID := dataSourceID,
            schemaContext := buildSchemaContext schemaResults.results,
            kpiContext := buildKPIContext kpiResults.results,
            glossaryContext := buildGlossaryContext glossaryResults.results }

/-- Whether an `Except` is a success. -/
def exceptOk {ε α : Type} : Except ε α → Bool
  | Except.ok _ => true
  | Except.error _ => false

/-! ## NL2SQL query records (`nl2sql.go`, `NL2SQLService`) -/

/-- Entity `models.QueryStatus`. -/
inductive QueryStatus where
  | pending
  | running
  | completed
  | failed
deriving Repr, DecidableEq, BEq

/-- Entity `models.NL2SQLQuery`, restricted to the fields the executability gate
and the status transitions read and write (timestamps omitted). -/
structure NL2SQLQueryRec where
  generatedSQL : String
  status : QueryStatus
  errorMsg : String
  executionTime : Int
  rowsReturned : Int
deriving Repr, DecidableEq

/-- Source `NL2SQLQuery.IsExecutable`: the query has generated SQL and is not
failed. -/
def IsExecutable (q : NL2SQLQueryRec) : Bool :=
  q.generatedSQL != "" && q.status != QueryStatus.failed

/-- Source `NL2SQLQuery.MarkCompleted`. -/
def MarkCompleted (q : NL2SQLQueryRec) (executionTime rowsReturned : Int) :
    NL2SQLQueryRec :=
  { q with
    status := QueryStatus.completed
    executionTime := executionTime
    rowsReturned := rowsReturned }

/-- Source `NL2SQLQuery.MarkFailed`. -/
def MarkFailed (q : NL2SQLQueryRec) (errorMsg : String) : NL2SQLQueryRec :=
  { q with status := QueryStatus.failed, errorMsg := errorMsg }

/-- The tail of `ConvertNL2SQL` once the SQL has been generated and
validated: store the generated SQL on the record, then mark it completed
when `IsQuerySafe` accepts the validation result and failed otherwise. -/
def finalizeConversion (q : NL2SQLQueryRec) (generatedSQL : String)
    (validation : SQLValidationResult) : NL2SQLQueryRec :=
  let q1 := { q with generatedSQL := generatedSQL }
  if IsQuerySafe validation then MarkCompleted q1 0 0
  else MarkFailed q1 "Query failed safety validation"

/-- The row-count summary of a successful data-source execution. -/
structure ExecData where
  rowCount : Int
deriving Repr, DecidableEq

/-- The response of `ExecuteQuery`, restricted to status and message. -/
structure QueryExecutionResp where
  status : QueryStatus
  message : String
deriving Repr, DecidableEq

/-- Source `NL2SQLService.ExecuteQuery` on an already-fetched query record `q`:
refuse with an error when `IsExecutable` is false; otherwise forward the
SQL to the data source (whose outcome is the explicit `outcome` argument)
and update the record.  The returned triple is (Go return value as
`Except`, the record as saved back, whether the SQL was forwarded to the
data-source connector). -/
def ExecuteQuery (q : NL2SQLQueryRec) (outcome : Except String ExecData)
    (executionTime : Int) :
    Except String QueryExecutionResp × NL2SQLQueryRec × Bool :=
  if IsExecutable q = false then
    (Except.error "query is not executable", q, false)
  else
    match outcome with
    | Except.error msg =>
      (Except.ok { status := QueryStatus.failed, message := msg },
        { q with
          status := QueryStatus.failed
          errorMsg := msg
          executionTime := executionTime }, true)
    | Except.ok d =>
      (Except.ok
        { status := QueryStatus.completed
          message := "Query executed successfully" },
        { q with
          executionTime := executionTime
          rowsReturned := d.rowCount }, true)

/-- One mutation of a stored query record after conversion: the only code
path that writes to an existing record is `ExecuteQuery` saving it back
(with some data-source outcome and elapsed time). -/
inductive QueryStep : NL2SQLQueryRec → NL2SQLQueryRec → Prop where
  | exec (q : NL2SQLQueryRec) (outcome : Except String ExecData)
      (executionTime : Int) :
      QueryStep q (ExecuteQuery q outcome executionTime).2.1

/-! ## Shared oracles for witnesses and counterexamples -/

/-- A parse oracle that always fails; the claims it serves are decided
before the parser runs. -/
def parseFailOracle : String → ParseOutcome :=
  fun _ => ParseOutcome.parseFailure "unreadable input"

/-- A parse oracle producing a plain one-table SELECT with a LIMIT. -/
def parseSelectOracle : String → ParseOutcome :=
  fun _ => ParseOutcome.selectStmt
    { hasLimit := true, fromTableCount := 1, hasWhere := false,
      hasGroupBy := false, hasOrderBy := false }

/-- An acceptance oracle under which every body is a valid SELECT. -/
def acceptAll : List Char → Bool := fun _ => true

/-! ## Claim C4: context build failure policy -/

/-- Claim C4 (counterexample): the claim says that when the KPI similarity
search fails the sub-context is treated as empty and the build still
succeeds; but `BuildNL2SQLContext` with a succeeding schema search and a
failing KPI search returns an error, not a context. -/
theorem buildContext_kpiFailure_counterexample :
    BuildNL2SQLContext "total sales" 1
      (Except.ok { results := [], query := "total sales", topK := 10 })
      (Except.error "embedding service unavailable")
      (Except.ok { results := [], query := "total sales", topK := 5 }) =
    Except.error "failed to search KPIs: embedding service unavailable" := rfl

/-- Claim C4 (amended): every failing sub-search of `BuildNL2SQLContext`
is fatal — the build succeeds exactly when the schema search, the KPI
search and the glossary search all succeed; a KPI or glossary failure is
propagated as an error, not treated as an empty sub-context. -/
theorem buildContext_failure_propagation (query : String) (dataSourceID : Nat)
    (schemaSearch kpiSearch glossarySearch : Except String RAGSearchResponse) :
    exceptOk (BuildNL2SQLContext query dataSourceID schemaSearch kpiSearch
        glossarySearch) =
      (exceptOk schemaSearch && exceptOk kpiSearch && exceptOk glossarySearch) := by
  cases schemaSearch <;> cases kpiSearch <;> cases glossarySearch <;> rfl

/-! ## Claim C1: a safety-rejected query is never executed -/

theorem isExecutable_of_failed (q : NL2SQLQueryRec)
    (h : q.status = QueryStatus.failed) : IsExecutable q = false := by
  have hb : (q.status != QueryStatus.failed) = false := by rw [h]; decide
  simp [IsExecutable, hb]

theorem queryStep_of_failed {q q' : NL2SQLQueryRec} (h : QueryStep q q')
    (hf : q.status = QueryStatus.failed) : q' = q := by
  cases h with
  | exec outcome executionTime =>
    simp [ExecuteQuery, isExecutable_of_failed q hf]

theorem reachable_of_failed {q q' : NL2SQLQueryRec}
    (h : Relation.ReflTransGen QueryStep q q')
    (hf : q.status = QueryStatus.failed) : q' = q := by
  induction h with
  | refl => rfl
  | tail _ hstep ih => rw [ih] at hstep; exact queryStep_of_failed hstep hf

/-- Claim C1: when the safety gate rejects the validation result of the
generated SQL, the conversion marks the record failed, `IsExecutable` is
false for it, and in every state reachable from it (under the only
post-conversion mutation, `ExecuteQuery` saving the record back) the
record stays failed and `ExecuteQuery` refuses it with an error without
forwarding the SQL to the data source. -/
theorem rejectedQuery_never_executed (q0 : NL2SQLQueryRec) (sql : String)
    (validation : SQLValidationResult) (hv : IsQuerySafe validation = false) :
    (finalizeConversion q0 sql validation).status = QueryStatus.failed ∧
    IsExecutable (finalizeConversion q0 sql validation) = false ∧
    ∀ q', Relation.ReflTransGen QueryStep (finalizeConversion q0 sql validation) q' →
      q'.status = QueryStatus.failed ∧
      ∀ outcome executionTime,
        (ExecuteQuery q' outcome executionTime).1 =
          Except.error "query is not executable" ∧
        (ExecuteQuery q' outcome executionTime).2.2 = false := by
  have hfail : (finalizeConversion q0 sql validation).status = QueryStatus.failed := by
    simp [finalizeConversion, hv, MarkFailed]
  refine ⟨hfail, isExecutable_of_failed _ hfail, ?_⟩
  intro q' hreach
  have hq' : q' = finalizeConversion q0 sql validation :=
    reachable_of_failed hreach hfail
  subst hq'
  refine ⟨hfail, ?_⟩
  intro outcome executionTime
  constructor <;> simp [ExecuteQuery, isExecutable_of_failed _ hfail]

/-- Claim C1 (witness): a concrete rejected conversion is refused by
`ExecuteQuery`. -/
theorem rejectedQuery_never_executed_witness :
    (ExecuteQuery
        (finalizeConversion ⟨"", QueryStatus.pending, "", 0, 0⟩ "SELECT 1"
          emptyValidationResult)
        (Except.ok ⟨2⟩) 5).1 = Except.error "query is not executable" :=
  (((rejectedQuery_never_executed ⟨"", QueryStatus.pending, "", 0, 0⟩ "SELECT 1"
        emptyValidationResult (by decide)).2.2 _
      Relation.ReflTransGen.refl).2 (Except.ok ⟨2⟩) 5).1

/-! ## Claim C5: top-K truncation and descending order -/

/-- Claim C5: `SearchSimilar` clamps `topK` into [1,20] (defaulting to 5
on non-positive input), returns at most that many results, and the
returned results are sorted in descending order of similarity score. -/
theorem searchSimilar_topK_sorted (queryEmbedding : List ℝ)
    (stored : List SchemaEmbedding) (query : String) (dataSourceID : Nat)
    (topK : Int) (elementTypes : List String) :
    (1 ≤ clampTopK topK ∧ clampTopK topK ≤ 20 ∧
      (topK ≤ 0 → clampTopK topK = 5)) ∧
    (SearchSimilar queryEmbedding stored query dataSourceID topK
        elementTypes).results.length ≤ clampTopK topK ∧
    List.Sorted (· ≥ ·)
      ((SearchSimilar queryEmbedding stored query dataSourceID topK
          elementTypes).results.map RAGSearchResult.score) := by
  refine ⟨⟨?_, ?_, ?_⟩, ?_, ?_⟩
  · unfold clampTopK; split_ifs <;> omega
  · unfold clampTopK; split_ifs <;> omega
  · intro h; simp [clampTopK, h]
  · simp only [SearchSimilar, List.length_map]
    exact le_trans (List.length_take_le _ _) le_rfl
  · simp only [SearchSimilar, List.map_map]
    have hsorted :
        ((stored.filter fun e =>
            matchesDataSource dataSourceID e &&
              matchesElementTypes elementTypes e).map fun e =>
          (e, cosineSimilarity queryEmbedding e.embedding)).insertionSort
            scoreDesc |>.Sorted scoreDesc :=
      List.sorted_insertionSort scoreDesc _
    have htake := hsorted.sublist (List.take_sublist (clampTopK topK) _)
    exact htake.map _ (fun a b hab => hab)

/-- Claim C5 (witness): at a concrete non-positive `topK` the clamp
defaults to 5. -/
theorem searchSimilar_topK_sorted_witness : clampTopK (-3) = 5 :=
  (searchSimilar_topK_sorted [] [] "q" 0 (-3) []).1.2.2 (by decide)

/-! ## Claim C6: cosine similarity bounds and degenerate cases -/

theorem sum_map_get {α : Type} (l : List α) (f : α → ℝ) :
    (l.map f).sum = ∑ i : Fin l.length, f (l.get i) := by
  conv_rhs => rw [Fin.sum_univ_def]
  rw [show ((List.finRange l.length).map fun i => f (l.get i)) =
      ((List.finRange l.length).map l.get).map f from by
    rw [List.map_map]; rfl]
  rw [List.finRange_map_get]

theorem list_dot_sq_le (p : List (ℝ × ℝ)) :
    ((p.map fun q => q.1 * q.2).sum) ^ 2 ≤
      ((p.map fun q => q.1 * q.1).sum) * ((p.map fun q => q.2 * q.2).sum) := by
  have h := Finset.sum_mul_sq_le_sq_mul_sq (Finset.univ : Finset (Fin p.length))
    (fun i => (p.get i).1) (fun i => (p.get i).2)
  rw [sum_map_get p fun q => q.1 * q.2, sum_map_get p fun q => q.1 * q.1,
    sum_map_get p fun q => q.2 * q.2]
  simpa only [pow_two] using h

theorem list_sq_sum_nonneg (p : List (ℝ × ℝ)) (f : ℝ × ℝ → ℝ) :
    0 ≤ (p.map fun q => f q * f q).sum := by
  apply List.sum_nonneg
  intro x hx
  obtain ⟨q, _, rfl⟩ := List.mem_map.1 hx
  exact mul_self_nonneg (f q)

theorem list_abs_dot_le (p : List (ℝ × ℝ)) :
    |(p.map fun q => q.1 * q.2).sum| ≤
      Real.sqrt ((p.map fun q => q.1 * q.1).sum) *
        Real.sqrt ((p.map fun q => q.2 * q.2).sum) := by
  have h1 := list_dot_sq_le p
  have h2 : |(p.map fun q => q.1 * q.2).sum| =
      Real.sqrt (((p.map fun q => q.1 * q.2).sum) ^ 2) :=
    (Real.sqrt_sq_eq_abs _).symm
  rw [h2, ← Real.sqrt_mul (list_sq_sum_nonneg p Prod.fst)]
  exact Real.sqrt_le_sqrt h1

/-- Claim C6: for every pair of vectors `cosineSimilarity` lies in
[-1, 1]; on a dimension mismatch, or when either vector has zero
magnitude, it is exactly 0 (the division is never reached). -/
theorem cosineSimilarity_bounds (a b : List ℝ) :
    (-1 ≤ cosineSimilarity a b ∧ cosineSimilarity a b ≤ 1) ∧
    (a.length ≠ b.length → cosineSimilarity a b = 0) ∧
    (((a.zip b).map fun p => p.1 * p.1).sum = 0 ∨
        ((a.zip b).map fun p => p.2 * p.2).sum = 0 →
      cosineSimilarity a b = 0) := by
  by_cases hlen : a.length ≠ b.length
  · have h0 : cosineSimilarity a b = 0 := by
      unfold cosineSimilarity; rw [if_pos hlen]
    exact ⟨⟨by rw [h0]; norm_num, by rw [h0]; norm_num⟩,
      fun _ => h0, fun _ => h0⟩
  · by_cases hz : ((a.zip b).map fun p => p.1 * p.1).sum = 0 ∨
        ((a.zip b).map fun p => p.2 * p.2).sum = 0
    · have h0 : cosineSimilarity a b = 0 := by
        unfold cosineSimilarity; rw [if_neg hlen]; simp only
        rw [if_pos hz]
      exact ⟨⟨by rw [h0]; norm_num, by rw [h0]; norm_num⟩,
        fun h => absurd h hlen, fun _ => h0⟩
    · have hval : cosineSimilarity a b =
          ((a.zip b).map fun p => p.1 * p.2).sum /
            (Real.sqrt (((a.zip b).map fun p => p.1 * p.1).sum) *
              Real.sqrt (((a.zip b).map fun p => p.2 * p.2).sum)) := by
        unfold cosineSimilarity; rw [if_neg hlen]; simp only
        rw [if_neg hz]
      push_neg at hz
      have hA : 0 < ((a.zip b).map fun p => p.1 * p.1).sum :=
        lt_of_le_of_ne (list_sq_sum_nonneg _ Prod.fst) (Ne.symm hz.1)
      have hB : 0 < ((a.zip b).map fun p => p.2 * p.2).sum :=
        lt_of_le_of_ne (list_sq_sum_nonneg _ Prod.snd) (Ne.symm hz.2)
      have hD : 0 < Real.sqrt (((a.zip b).map fun p => p.1 * p.1).sum) *
          Real.sqrt (((a.zip b).map fun p => p.2 * p.2).sum) :=
        mul_pos (Real.sqrt_pos.2 hA) (Real.sqrt_pos.2 hB)
      have habs : |cosineSimilarity a b| ≤ 1 := by
        rw [hval, abs_div, abs_of_pos hD, div_le_one hD]
        exact list_abs_dot_le (a.zip b)
      exact ⟨⟨(abs_le.1 habs).1, (abs_le.1 habs).2⟩,
        fun h => absurd h hlen, fun h => absurd h (by push_neg; exact hz)⟩

/-- Claim C6 (witness): a concrete dimension mismatch yields exactly 0. -/
theorem cosineSimilarity_bounds_witness :
    cosineSimilarity [0] [0, 1] = 0 :=
  (cosineSimilarity_bounds [0] [0, 1]).2.1 (by decide)

/-! ## Claim C2: blocked keywords force rejection -/

theorem containsSub_iff_occurs (hay needle : List Char) :
    containsSub hay needle = true ↔ needle <:+: hay := by
  induction hay with
  | nil =>
    simp [containsSub, List.isEmpty_iff]
  | cons c t ih =>
    simp only [containsSub, Bool.or_eq_true, ih, List.isPrefixOf_iff_prefix ,
      List.infix_cons_iff]

theorem dropWhile_append_cons (p : Char → Bool) (a : List Char) (x : Char)
    (xs : List Char) (hx : p x = false) :
    (a ++ x :: xs).dropWhile p = a.dropWhile p ++ x :: xs := by
  induction a with
  | nil => simp [List.dropWhile_cons, hx]
  | cons c t ih =>
    by_cases h : p c <;> simp [List.dropWhile_cons, h, ih]

/-- Both trims preserve an occurrence of a pattern whose first and last
characters are not white space. -/
theorem trimSpace_keeps_occurrence {kw l : List Char} (hne : kw ≠ [])
    (hhead : isGoSpace (kw.headD ' ') = false)
    (hlast : isGoSpace (kw.getLastD ' ') = false)
    (h : kw <:+: l) : kw <:+: trimSpace l := by
  obtain ⟨s, t, rfl⟩ := h
  obtain ⟨kh, kt, rfl⟩ := List.exists_cons_of_ne_nil hne
  rcases List.eq_nil_or_concat (kh :: kt) with habs | ⟨ys, z, hyz⟩
  · exact absurd habs (by simp)
  have hhead' : isGoSpace kh = false := hhead
  have hlast' : isGoSpace z = false := by
    have : (kh :: kt).getLastD ' ' = z := by
      rw [hyz, List.concat_eq_append, List.getLastD_concat]
    rw [← this]; exact hlast
  unfold trimSpace
  have h1 : (s ++ (kh :: kt) ++ t).dropWhile isGoSpace =
      s.dropWhile isGoSpace ++ (kh :: kt) ++ t := by
    rw [List.append_assoc, List.cons_append,
      dropWhile_append_cons isGoSpace s kh (kt ++ t) hhead',
      ← List.cons_append, ← List.append_assoc]
  rw [h1]
  have h2 : (s.dropWhile isGoSpace ++ (kh :: kt) ++ t).reverse =
      t.reverse ++ z :: (ys.reverse ++ (s.dropWhile isGoSpace).reverse) := by
    rw [hyz, List.concat_eq_append]
    simp [List.reverse_append]
  rw [h2, dropWhile_append_cons isGoSpace t.reverse z _ hlast']
  refine ⟨s.dropWhile isGoSpace, ((t.reverse.dropWhile isGoSpace).reverse), ?_⟩
  rw [hyz, List.concat_eq_append]
  simp [List.reverse_append]

theorem isGoSpace_toUpper (c : Char) : isGoSpace c.toUpper = isGoSpace c := by
  show isGoSpace (if c.toNat ≥ 97 ∧ c.toNat ≤ 122 then
    Char.ofNat (c.toNat - 32) else c) = isGoSpace c
  by_cases h : c.toNat ≥ 97 ∧ c.toNat ≤ 122
  · rw [if_pos h]
    have hc : isGoSpace c = false := by
      simp only [isGoSpace, Bool.or_eq_false_iff, decide_eq_false_iff_not]
      omega
    rw [hc]
    have hm : 65 ≤ c.toNat - 32 ∧ c.toNat - 32 ≤ 90 := by omega
    revert hm
    generalize c.toNat - 32 = m
    rintro ⟨h1, h2⟩
    interval_cases m <;> decide
  · rw [if_neg h]

theorem dropWhile_goToUpper (l : List Char) :
    (goToUpper l).dropWhile isGoSpace = goToUpper (l.dropWhile isGoSpace) := by
  induction l with
  | nil => rfl
  | cons c t ih =>
    by_cases h : isGoSpace c
    · simp [goToUpper, List.dropWhile_cons, isGoSpace_toUpper, h] at ih ⊢
      exact ih
    · simp [goToUpper, List.dropWhile_cons, isGoSpace_toUpper, h]

theorem reverse_goToUpper (l : List Char) :
    (goToUpper l).reverse = goToUpper l.reverse := by
  simp [goToUpper, List.map_reverse]

theorem trimSpace_goToUpper (l : List Char) :
    trimSpace (goToUpper l) = goToUpper (trimSpace l) := by
  unfold trimSpace
  rw [dropWhile_goToUpper, reverse_goToUpper, dropWhile_goToUpper,
    reverse_goToUpper]

/-- Every blocked keyword is non-empty and free of leading or trailing
white space. -/
theorem blockedKeywords_good : ∀ kw ∈ blockedKeywords, kw.toList ≠ [] ∧
    isGoSpace (kw.toList.headD ' ') = false ∧
    isGoSpace (kw.toList.getLastD ' ') = false := by decide

/-- Claim C2: any input containing a blocked keyword as a
case-insensitive substring is rejected by `ValidateSQL` (`is_valid` is
false), regardless of any other property of the input. -/
theorem validateSQL_blocked_keyword (parse : String → ParseOutcome)
    (sql kw : String) (hkw : kw ∈ blockedKeywords)
    (hsub : containsSub (goToUpper sql.toList) kw.toList = true) :
    (ValidateSQL parse sql).1.isValid = false := by
  obtain ⟨hne, hhead, hlast⟩ := blockedKeywords_good kw hkw
  have hinf : kw.toList <:+: goToUpper sql.toList :=
    (containsSub_iff_occurs _ _).1 hsub
  have htrim : kw.toList <:+: goToUpper (trimSpace sql.toList) := by
    rw [← trimSpace_goToUpper]
    exact trimSpace_keeps_occurrence hne hhead hlast hinf
  have hcont : containsSub
      (goToUpper (String.mk (trimSpace sql.toList)).toList) kw.toList = true :=
    (containsSub_iff_occurs _ _).2 htrim
  have hmem : ("Blocked keyword detected: " ++ kw) ∈
      checkBlockedKeywords (String.mk (trimSpace sql.toList)) :=
    List.mem_filterMap.2 ⟨kw, hkw, by rw [if_pos hcont]⟩
  have hkwne : checkBlockedKeywords (String.mk (trimSpace sql.toList)) ≠ [] :=
    List.ne_nil_of_mem hmem
  have hsne : String.mk (trimSpace sql.toList) ≠ "" := by
    intro habs
    have : trimSpace sql.toList = [] := congrArg String.toList habs
    rw [this] at htrim
    have : goToUpper [] = ([] : List Char) := rfl
    rw [this] at htrim
    exact hne (List.eq_nil_of_infix_nil htrim)
  unfold ValidateSQL
  rw [if_neg hsne, if_pos hkwne]
  rfl

/-- Claim C2 (witness): a concrete input containing `DROP` is rejected. -/
theorem validateSQL_blocked_keyword_witness :
    (ValidateSQL parseFailOracle "DROP TABLE users").1.isValid = false :=
  validateSQL_blocked_keyword parseFailOracle "DROP TABLE users" "DROP"
    (by decide) (by decide)

/-! ## Claim C10: error/violations correspondence of `ValidateSQL` -/

/-- Claim C10: `ValidateSQL` returns a non-nil error exactly when the
result's violation list is non-empty, and on a nil error the result is
valid and read-only. -/
theorem validateSQL_error_iff_violations (parse : String → ParseOutcome)
    (sql : String) :
    ((ValidateSQL parse sql).2 ≠ none ↔
      (ValidateSQL parse sql).1.violations ≠ []) ∧
    ((ValidateSQL parse sql).2 = none →
      (ValidateSQL parse sql).1.isValid = true ∧
      (ValidateSQL parse sql).1.isReadOnly = true) := by
  unfold ValidateSQL
  by_cases h1 : String.mk (trimSpace sql.toList) = ""
  · rw [if_pos h1]
    exact ⟨by simp [emptyValidationResult], by simp⟩
  · rw [if_neg h1]
    by_cases h2 : checkBlockedKeywords (String.mk (trimSpace sql.toList)) ≠ []
    · rw [if_pos h2]
      exact ⟨by simpa using h2, by simp⟩
    · rw [if_neg h2]
      cases hp : parse (String.mk (trimSpace sql.toList)) with
      | parseFailure msg => exact ⟨by simp [emptyValidationResult], by simp⟩
      | notSelect => exact ⟨by simp [emptyValidationResult], by simp⟩
      | selectStmt info =>
        dsimp only
        by_cases h3 : validateFunctions (String.mk (trimSpace sql.toList)) ≠ []
        · rw [if_pos h3]
          exact ⟨by simpa using h3, by simp⟩
        · rw [if_neg h3]
          refine ⟨by simp [emptyValidationResult], fun _ => ⟨rfl, rfl⟩⟩

/-- Claim C10 (witness): on a concrete successfully validated input the
error is nil and the result is valid and read-only. -/
theorem validateSQL_error_iff_violations_witness :
    (ValidateSQL parseSelectOracle "select name from users").1.isValid = true ∧
    (ValidateSQL parseSelectOracle "select name from users").1.isReadOnly = true :=
  (validateSQL_error_iff_violations parseSelectOracle
    "select name from users").2 (by decide)

/-! ## Claim C3: the safety-score formula -/

/-- The safety-score formula exactly as the spec states it: start at 1.0,
subtract 0.3 per violation and 0.1 per warning, add 0.2 if read-only and
0.1 if a LIMIT is present, clamp to [0,1]. -/
def specSafetyScoreFormula (r : SQLValidationResult) : ℚ :=
  max 0 (min 1 (1 - (r.violations.length : ℚ) * (3 / 10)
    - (r.warnings.length : ℚ) * (1 / 10)
    + (if r.isReadOnly then 2 / 10 else 0)
    + (if r.hasLimit then 1 / 10 else 0)))

set_option maxHeartbeats 1000000 in
theorem calculateSafetyScore_eq_spec (r : SQLValidationResult) :
    calculateSafetyScore r = specSafetyScoreFormula r := by
  rcases r with ⟨valid, ro, hl, ec, ss, viol, warn⟩
  unfold calculateSafetyScore specSafetyScoreFormula
  dsimp only
  cases ro <;> cases hl <;>
    simp only [Bool.false_eq_true, ite_true, ite_false, if_true, if_false] <;>
    rw [max_def, min_def] <;> split_ifs <;> linarith

/-- Claim C3 (counterexample): the claim asserts the score formula also
for rejected inputs, but a blocked-keyword rejection (one violation)
returns `safety_score = 0` while the formula yields 0.7. -/
theorem safetyScore_formula_counterexample :
    (ValidateSQL parseFailOracle "INSERT").1.safetyScore ≠
      specSafetyScoreFormula (ValidateSQL parseFailOracle "INSERT").1 := by
  have hres : (ValidateSQL parseFailOracle "INSERT").1 =
      { emptyValidationResult with
        violations := ["Blocked keyword detected: INSERT"] } := rfl
  rw [hres]
  norm_num [specSafetyScoreFormula, emptyValidationResult]

/-- Claim C3 (amended): the returned `safety_score` equals the spec's
formula for every input that validates without error; every rejected
input (non-nil error) is returned with `safety_score = 0`, the formula
never being applied. -/
theorem safetyScore_formula_amended (parse : String → ParseOutcome)
    (sql : String) :
    ((ValidateSQL parse sql).2 = none →
      (ValidateSQL parse sql).1.safetyScore =
        specSafetyScoreFormula (ValidateSQL parse sql).1) ∧
    ((ValidateSQL parse sql).2 ≠ none →
      (ValidateSQL parse sql).1.safetyScore = 0) := by
  unfold ValidateSQL
  by_cases h1 : String.mk (trimSpace sql.toList) = ""
  · rw [if_pos h1]
    exact ⟨by simp, fun _ => rfl⟩
  · rw [if_neg h1]
    by_cases h2 : checkBlockedKeywords (String.mk (trimSpace sql.toList)) ≠ []
    · rw [if_pos h2]
      exact ⟨by simp, fun _ => rfl⟩
    · rw [if_neg h2]
      cases hp : parse (String.mk (trimSpace sql.toList)) with
      | parseFailure msg => exact ⟨by simp, fun _ => rfl⟩
      | notSelect => exact ⟨by simp, fun _ => rfl⟩
      | selectStmt info =>
        dsimp only
        by_cases h3 : validateFunctions (String.mk (trimSpace sql.toList)) ≠ []
        · rw [if_pos h3]
          exact ⟨by simp, fun _ => rfl⟩
        · rw [if_neg h3]
          exact ⟨fun _ => calculateSafetyScore_eq_spec _, by simp⟩

/-- Claim C3 (witness): on a concrete successfully validated input the
score equals the spec formula. -/
theorem safetyScore_formula_amended_witness :
    (ValidateSQL parseSelectOracle "select name from users").1.safetyScore =
      specSafetyScoreFormula
        (ValidateSQL parseSelectOracle "select name from users").1 :=
  (safetyScore_formula_amended parseSelectOracle
    "select name from users").1 (by decide)

/-! ## Claim C9: the `EXEC_SOMETHING` scenario -/

/-- Claim C9 (counterexample): on
`"SELECT EXEC_SOMETHING() FROM sales LIMIT 10"` the violation list is
exactly the blocked-keyword message for `EXEC` — no violation names the
called function `EXEC_SOMETHING`, because the keyword scan rejects the
input before function validation runs. -/
theorem execSomething_counterexample :
    (ValidateSQL parseFailOracle
        "SELECT EXEC_SOMETHING() FROM sales LIMIT 10").1.violations =
      ["Blocked keyword detected: EXEC"] ∧
    ∀ v ∈ (ValidateSQL parseFailOracle
        "SELECT EXEC_SOMETHING() FROM sales LIMIT 10").1.violations,
      containsSub v.toList "EXEC_SOMETHING".toList = false := by
  constructor
  · decide
  · decide

/-- Claim C9 (amended): the input is rejected (`is_valid` is false), but
the violation names the blocked keyword `EXEC` detected as a substring of
the function name, not the function `EXEC_SOMETHING` itself. -/
theorem execSomething_rejected :
    (ValidateSQL parseFailOracle
        "SELECT EXEC_SOMETHING() FROM sales LIMIT 10").1.isValid = false ∧
    (ValidateSQL parseFailOracle
        "SELECT EXEC_SOMETHING() FROM sales LIMIT 10").1.violations =
      ["Blocked keyword detected: EXEC"] := by
  constructor
  · decide
  · decide

/-! ## Claim C8: idempotence of limit enforcement -/

theorem digitChar_isDigit (d : Nat) (h : d < 10) :
    (digitChar d).isDigit = true := by
  interval_cases d <;> decide

theorem digitsOfAux_ne_nil (fuel n : Nat) : digitsOfAux (fuel + 1) n ≠ [] := by
  unfold digitsOfAux
  split_ifs <;> simp

theorem digitsOfAux_all_digits (fuel : Nat) :
    ∀ n, ∀ c ∈ digitsOfAux fuel n, c.isDigit = true := by
  induction fuel with
  | zero => intro n c hc; simp [digitsOfAux] at hc
  | succ f ih =>
    intro n c hc
    unfold digitsOfAux at hc
    split_ifs at hc with h
    · simp at hc; subst hc; exact digitChar_isDigit n h
    · rcases List.mem_append.1 hc with h1 | h2
      · exact ih _ c h1
      · simp at h2; subst h2
        exact digitChar_isDigit _ (Nat.mod_lt _ (by norm_num))

theorem digitsOf_ne_nil (n : Nat) : digitsOf n ≠ [] :=
  digitsOfAux_ne_nil n n

theorem digitsOf_all_digits (n : Nat) : ∀ c ∈ digitsOf n, c.isDigit = true :=
  digitsOfAux_all_digits (n + 1) n

theorem takeWhile_dropWhile_append (p : Char → Bool) (xs : List Char)
    (y : Char) (ys : List Char) (hxs : ∀ c ∈ xs, p c = true)
    (hy : p y = false) :
    (xs ++ y :: ys).takeWhile p = xs ∧
    (xs ++ y :: ys).dropWhile p = y :: ys := by
  induction xs with
  | nil => simp [List.takeWhile_cons, List.dropWhile_cons, hy]
  | cons c t ih =>
    have hc : p c = true := hxs c (by simp)
    obtain ⟨h1, h2⟩ := ih fun d hd => hxs d (List.mem_cons_of_mem c hd)
    simp [List.takeWhile_cons, List.dropWhile_cons, hc, h1, h2]

theorem isPrefixOf_append_self (l r : List Char) :
    l.isPrefixOf (l ++ r) = true := by
  rw [ List.isPrefixOf_iff_prefix]
  exact List.prefix_append l r

/-- Printing a body with a limit clause re-parses to the same body and
that limit clause. -/
theorem parse_print_roundtrip (b : List Char) (n : Nat) :
    parseSelectChars ((b ++ limitKeyword) ++ digitsOf n) =
      { body := b, limitVal := some (digitsVal (digitsOf n)) } := by
  have hds : ∀ c ∈ (digitsOf n).reverse, Char.isDigit c = true := fun c hc =>
    digitsOf_all_digits n c (List.mem_reverse.1 hc)
  have hkwrev : limitKeyword.reverse =
      ' ' :: 't' :: 'i' :: 'm' :: 'i' :: 'l' :: ' ' :: [] := rfl
  have hrev : ((b ++ limitKeyword) ++ digitsOf n).reverse =
      (digitsOf n).reverse ++
        ' ' :: ('t' :: 'i' :: 'm' :: 'i' :: 'l' :: ' ' :: b.reverse) := by
    rw [List.reverse_append, List.reverse_append, hkwrev]
    simp
  obtain ⟨htw, hdw⟩ := takeWhile_dropWhile_append Char.isDigit
    (digitsOf n).reverse ' '
    ('t' :: 'i' :: 'm' :: 'i' :: 'l' :: ' ' :: b.reverse) hds (by decide)
  have hne : (digitsOf n).reverse.isEmpty = false := by
    simp [List.isEmpty_iff, digitsOf_ne_nil n]
  have hpre : limitKeyword.reverse.isPrefixOf
      (' ' :: ('t' :: 'i' :: 'm' :: 'i' :: 'l' :: ' ' :: b.reverse)) = true := by
    have : (' ' :: ('t' :: 'i' :: 'm' :: 'i' :: 'l' :: ' ' :: b.reverse)) =
        limitKeyword.reverse ++ b.reverse := by rw [hkwrev]; rfl
    rw [this]
    exact isPrefixOf_append_self _ _
  unfold parseSelectChars
  dsimp only
  rw [hrev, htw, hdw]
  rw [if_pos (by rw [hne, hpre]; rfl)]
  have hdrop : ((' ' :: ('t' :: 'i' :: 'm' :: 'i' :: 'l' :: ' ' :: b.reverse)).drop
      limitKeyword.length) = b.reverse := rfl
  rw [hdrop]
  simp

/-- Claim C8: applying `EnforceLimit` a second time, with the same
requested limit, to the output of a successful first application returns
the identical SQL text. -/
theorem enforceLimit_idempotent (accept : List Char → Bool) (sql : String)
    (limit : Int) (out : String)
    (h : EnforceLimit accept sql limit = some out) :
    EnforceLimit accept out limit = some out := by
  unfold EnforceLimit at h ⊢
  by_cases hacc : accept (parseSelectChars sql.toList).body = true
  · rw [if_pos hacc] at h
    have hout : out = String.mk (printSelect
        { parseSelectChars sql.toList with
          limitVal := some (if limit ≤ 0 || limit > (maxRowLimit : Int) then
            maxRowLimit else limit.toNat) }) := (Option.some.injEq _ _ ▸ h).symm
    have hprint : printSelect
        { parseSelectChars sql.toList with
          limitVal := some (if limit ≤ 0 || limit > (maxRowLimit : Int) then
            maxRowLimit else limit.toNat) } =
        ((parseSelectChars sql.toList).body ++ limitKeyword) ++
          digitsOf (if limit ≤ 0 || limit > (maxRowLimit : Int) then
            maxRowLimit else limit.toNat) := by
      unfold printSelect
      simp [List.append_assoc]
    have houtList : out.toList =
        ((parseSelectChars sql.toList).body ++ limitKeyword) ++
          digitsOf (if limit ≤ 0 || limit > (maxRowLimit : Int) then
            maxRowLimit else limit.toNat) := by
      rw [hout, hprint]; rfl
    rw [houtList, parse_print_roundtrip]
    rw [if_pos hacc]
    rw [hout, hprint]
  · rw [if_neg hacc] at h
    exact absurd h (by simp)

/-- Claim C8 (witness): a concrete second application returns the first
application's output unchanged. -/
theorem enforceLimit_idempotent_witness :
    EnforceLimit acceptAll "select a from t limit 10" 10 =
      some "select a from t limit 10" :=
  enforceLimit_idempotent acceptAll "select a from t" 10
    "select a from t limit 10" (by rfl)

end Narapulse
